import Mathlib

/-!
Verification of the MadData opportunity scoring engine.

This file gives a shallow embedding of the scoring pipeline:
scoring/probability_score.py (haversine distance, nearest-sentiment matching
with distance decay, weighted fusion and calibration), scoring/fix_nulls.py
(the null-repair recalculation formula), business_score.py (the saturation
step table) and scripts/business_score.py (the tax-join deduplication), and
proves or refutes the specification claims about them.

Numeric conventions: the geometry and fusion arithmetic of
probability_score.py is modelled over the real numbers; the saturation table
and the tax-join deduplication, which use only exact rational constants and
comparisons, are modelled over the rationals so that concrete instances can
be evaluated by decide. A Python float NaN cell in a pandas row is modelled
as Option.none; arithmetic on possibly-NaN values propagates none, exactly
as NaN propagates through float arithmetic and round.
-/

/-- Model of Python math.radians: degrees to radians. -/
noncomputable def radians (x : ℝ) : ℝ := x * (Real.pi / 180)

/-- Model of Python math.atan2(y, x), by the standard piecewise definition. -/
noncomputable def atan2 (y x : ℝ) : ℝ :=
  if 0 < x then Real.arctan (y / x)
  else if x < 0 then
    (if 0 ≤ y then Real.arctan (y / x) + Real.pi else Real.arctan (y / x) - Real.pi)
  else if 0 < y then Real.pi / 2
  else if y < 0 then -(Real.pi / 2)
  else 0

/-- Embedding of haversine_distance from scoring/probability_score.py:
great-circle distance in km on a sphere of radius 6371. -/
noncomputable def haversine_distance (lat1 lon1 lat2 lon2 : ℝ) : ℝ :=
  let R : ℝ := 6371
  let lat1_rad := radians lat1
  let lat2_rad := radians lat2
  let delta_lat := radians (lat2 - lat1)
  let delta_lon := radians (lon2 - lon1)
  let a := Real.sin (delta_lat / 2) ^ 2 +
    Real.cos lat1_rad * Real.cos lat2_rad * Real.sin (delta_lon / 2) ^ 2
  let c := 2 * atan2 (Real.sqrt a) (Real.sqrt (1 - a))
  R * c

/-- One aggregated sentiment record, as read from
sentiment_by_area_business.json or transcript_sentiment.json. -/
structure SentimentRecord where
  location_tag : String
  business_type : String
  positive_ratio : ℝ
  lat : ℝ
  lon : ℝ

/-- One step of the best-match loop of find_closest_sentiment. The Python
loop starts from best_distance = float("inf"); the state none models the
not-yet-updated state, in which any computed distance wins the comparison
dist < best_distance. The state carries (best_match, best_distance,
best_sentiment). -/
noncomputable def updateBest (lat lon : ℝ) (best : Option (String × ℝ × ℝ))
    (row : SentimentRecord) : Option (String × ℝ × ℝ) :=
  let dist := haversine_distance lat lon row.lat row.lon
  match best with
  | none => some (row.location_tag, dist, row.positive_ratio)
  | some (bm, bd, bs) =>
      if dist < bd then some (row.location_tag, dist, row.positive_ratio)
      else some (bm, bd, bs)

/-- The distance-decay step of find_closest_sentiment (the final if of the
function): beyond max_distance_km the sentiment is blended linearly toward
the neutral 0.5, with the blend factor clamped at 1. -/
noncomputable def decaySentiment (best_sentiment best_distance max_distance_km : ℝ) : ℝ :=
  if best_distance > max_distance_km then
    let blend_factor := min 1.0 ((best_distance - max_distance_km) / 20.0)
    best_sentiment * (1 - blend_factor) + 0.5 * blend_factor
  else best_sentiment

/-- Embedding of find_closest_sentiment from scoring/probability_score.py.
Returns (location_tag, positive_ratio, distance_km). With no record of the
requested business type it returns the neutral triple; otherwise it scans
all matching records for the minimal haversine distance and applies the
distance decay. -/
noncomputable def find_closest_sentiment (lat lon : ℝ) (business_type : String)
    (sentiment_df : List SentimentRecord) (max_distance_km : ℝ := 15.0) :
    String × ℝ × ℝ :=
  let matchesList := sentiment_df.filter fun r => r.business_type == business_type
  match matchesList.foldl (updateBest lat lon) none with
  | none => ("no_data", 0.5, 999.0)
  | some (bm, bd, bs) => (bm, decaySentiment bs bd max_distance_km, bd)

/-- Round-half-to-even to an integer, the rounding used by Python round. -/
noncomputable def roundHalfEven (x : ℝ) : ℤ :=
  if Int.fract x < 1 / 2 then ⌊x⌋
  else if 1 / 2 < Int.fract x then ⌊x⌋ + 1
  else if Even ⌊x⌋ then ⌊x⌋ else ⌊x⌋ + 1

/-- Model of Python round(x, n): round half to even at n decimal digits. -/
noncomputable def pyRound (n : ℕ) (x : ℝ) : ℝ :=
  (roundHalfEven (x * 10 ^ n) : ℝ) / 10 ^ n

/-- The weighted combination of scoring/probability_score.py (the
raw_probability expression): 30 percent base business score, 25 percent
Reddit/Isthmus sentiment, 25 percent transcript sentiment, 20 percent
trends demand. -/
noncomputable def raw_probability (base_business_score reddit_sentiment
    transcript_sentiment trends_demand : ℝ) : ℝ :=
  0.30 * base_business_score +
  0.25 * reddit_sentiment +
  0.25 * transcript_sentiment +
  0.20 * trends_demand

/-- The calibration of scoring/probability_score.py: map a raw 0-1 score
affinely into the 25-90 range and round to one decimal. -/
noncomputable def calibrated_probability (raw : ℝ) : ℝ :=
  pyRound 1 (25 + raw * 65)

/-- One row of business_scores.csv as iterated by main. The id, lat and lon
columns are accessed with mandatory indexing in the source; the sub-score
columns are accessed through Series.get and may hold a NaN cell, modelled
as an inner none. -/
structure BusinessRow where
  id : String
  lat : ℝ
  lon : ℝ
  cells : List (String × Option ℝ)

/-- Model of pandas Series.get(key, default): the default applies only when
the key is absent from the index; a present-but-NaN cell is returned as is
(none), exactly as Series.get returns the NaN value itself. -/
def BusinessRow.get (row : BusinessRow) (key : String) (default : ℝ) : Option ℝ :=
  match row.cells.find? (fun c => c.1 == key) with
  | some c => c.2
  | none => some default

/-- Model of a Python dict built by insertion: inserting an existing key
overwrites its value in place, a new key is appended, matching dict
insertion-order semantics. -/
def dictInsert (d : List (String × ℝ)) (k : String) (v : ℝ) : List (String × ℝ) :=
  if d.any (fun p => p.1 == k) then
    d.map (fun p => if p.1 == k then (k, v) else p)
  else d ++ [(k, v)]

/-- The dict comprehension of main that turns the trends list into
trends_data: item.business_type mapped to item.demand_score. -/
def dictOfList (l : List (String × ℝ)) : List (String × ℝ) :=
  l.foldl (fun d p => dictInsert d p.1 p.2) []

/-- Model of Python dict.get(key, default) on the association list. -/
def dictGet (d : List (String × ℝ)) (k : String) (default : ℝ) : ℝ :=
  match d.find? (fun p => p.1 == k) with
  | some p => p.2
  | none => default

/-- One output record of scoring/probability_score.py (a final_scores.csv
row). Fields whose computation can receive a NaN cell are Option-valued;
none models an emitted null. -/
structure FinalScore where
  id : String
  lat : ℝ
  lon : ℝ
  business_type : String
  final_probability : Option ℝ
  base_business_score : Option ℝ
  reddit_sentiment_score : ℝ
  transcript_sentiment_score : ℝ
  trends_demand_score : ℝ
  saturation_score : Option ℝ
  matched_reddit_location : String
  matched_transcript_location : String
  distance_to_sentiment_km : ℝ

/-- The body of the inner loop of main in scoring/probability_score.py: the
record appended to results for one (lot row, business type) pair. A NaN
base business score propagates through the weighted sum, the calibration
and round into a null final_probability, as NaN does in float arithmetic. -/
noncomputable def scoreOne (row : BusinessRow) (business_type : String)
    (sentiment_df : List SentimentRecord)
    (transcript_df : Option (List SentimentRecord))
    (trends_data : List (String × ℝ)) : FinalScore :=
  let base_business_score := row.get "business_score" 0.5
  let saturation_score := row.get "saturation_score" 0.5
  let m := find_closest_sentiment row.lat row.lon business_type sentiment_df
  let matched_location := m.1
  let positive_ratio := m.2.1
  let distance_km := m.2.2
  let t :=
    match transcript_df with
    | some tdf =>
        if tdf.length > 0 then
          let tm := find_closest_sentiment row.lat row.lon business_type tdf
          if tm.1 ≠ "no_data" then (tm.2.1, tm.1) else (0.5, "no_data")
        else (0.5, "no_data")
    | none => (0.5, "no_data")
  let transcript_sentiment := t.1
  let transcript_location := t.2
  let trends_demand := dictGet trends_data business_type 25 / 100.0
  let reddit_sentiment := positive_ratio
  let raw := Option.map
    (fun b => raw_probability b reddit_sentiment transcript_sentiment trends_demand)
    base_business_score
  { id := row.id
    lat := row.lat
    lon := row.lon
    business_type := business_type
    final_probability := Option.map calibrated_probability raw
    base_business_score := Option.map (fun b => pyRound 1 (b * 100)) base_business_score
    reddit_sentiment_score := pyRound 1 (reddit_sentiment * 100)
    transcript_sentiment_score := pyRound 1 (transcript_sentiment * 100)
    trends_demand_score := pyRound 1 (trends_demand * 100)
    saturation_score := Option.map (pyRound 3) saturation_score
    matched_reddit_location := matched_location
    matched_transcript_location := transcript_location
    distance_to_sentiment_km := pyRound 2 distance_km }

/-- The positive-demand business types of main: the keys of trends_data
whose demand score is strictly positive, in dict order. -/
noncomputable def businessTypes (trends_data : List (String × ℝ)) : List String :=
  ((trends_data.filter fun p => p.2 > 0).map fun p => p.1)

/-- The results list built by the nested loops of main in
scoring/probability_score.py: for each business_df row, for each positive
demand business type, one appended record. -/
noncomputable def mainResults (business_df : List BusinessRow)
    (sentiment_df : List SentimentRecord)
    (transcript_df : Option (List SentimentRecord))
    (trends_list : List (String × ℝ)) : List FinalScore :=
  let trends_data := dictOfList trends_list
  let business_types := businessTypes trends_data
  business_df.flatMap fun row =>
    business_types.map fun business_type =>
      scoreOne row business_type sentiment_df transcript_df trends_data

/-- The weighted raw score of scoring/fix_nulls.py (inputs on the 0-100
scale, as read back from final_scores.csv). -/
noncomputable def fixNullsRaw (base_business sentiment trends : ℝ) : ℝ :=
  0.40 * base_business / 100 + 0.40 * sentiment / 100 + 0.20 * trends / 100

/-- The recalculated final probability of scoring/fix_nulls.py:
round(20 + raw * 72, 1). -/
noncomputable def fixNullsFinalProb (base_business sentiment trends : ℝ) : ℝ :=
  pyRound 1 (20 + fixNullsRaw base_business sentiment trends * 72)

/-- Embedding of score_saturation from business_score.py: the step table
from competitor count to saturation score. The count column is a pandas
float, so the table is over the rationals. -/
def score_saturation (count : ℚ) : ℚ :=
  if count = 0 then 1.0
  else if count = 1 then 0.7
  else if count = 2 then 0.3
  else 0.0

/-- One lot row of the tax spatial join of scripts/business_score.py,
reduced to the columns the deduplication reads. -/
structure TaxJoinRow where
  id : String
  TotalTaxes : ℚ
deriving DecidableEq

/-- Insertion step for the descending sort by TotalTaxes. -/
def insertDescByTaxes (r : TaxJoinRow) : List TaxJoinRow → List TaxJoinRow
  | [] => [r]
  | s :: rest =>
      if s.TotalTaxes ≤ r.TotalTaxes then r :: s :: rest
      else s :: insertDescByTaxes r rest

/-- Model of sort_values(TotalTaxes, ascending=False) from
scripts/business_score.py: a deterministic sort placing larger tax values
first (the pandas sort kind leaves tie order unspecified; this model fixes
one). -/
def sortByTaxesDesc : List TaxJoinRow → List TaxJoinRow
  | [] => []
  | r :: rest => insertDescByTaxes r (sortByTaxesDesc rest)

/-- Worker for drop_duplicates(subset=[id]): keep each row whose id has not
been seen yet, in order (pandas keep=first semantics). -/
def dropDupGo (seen : List String) : List TaxJoinRow → List TaxJoinRow
  | [] => []
  | r :: rest =>
      if r.id ∈ seen then dropDupGo seen rest
      else r :: dropDupGo (r.id :: seen) rest

/-- Model of drop_duplicates(subset=[id]) with keep=first. -/
def drop_duplicates_by_id (l : List TaxJoinRow) : List TaxJoinRow :=
  dropDupGo [] l

/-- The duplicate-resolution step of calculate_recommendations in
scripts/business_score.py: sort by TotalTaxes descending, then deduplicate
by lot id keeping the first row. -/
def dedupeTaxJoin (rows : List TaxJoinRow) : List TaxJoinRow :=
  drop_duplicates_by_id (sortByTaxesDesc rows)

/-- A one-record sentiment corpus used as a concrete witness input. -/
def gymCorpus : List SentimentRecord :=
  [{ location_tag := "east", business_type := "gym", positive_ratio := 0.9,
     lat := 43, lon := -89 }]

/-- A one-record cafe corpus at the origin with fully negative sentiment,
used as a concrete counterexample input. -/
def cafeOriginCorpus : List SentimentRecord :=
  [{ location_tag := "isthmus", business_type := "cafe", positive_ratio := 0,
     lat := 0, lon := 0 }]

/-- A one-entry trends list used as a concrete input. -/
def cafeTrends : List (String × ℝ) := [("cafe", 100)]

/-- A lot row whose business_score cell is a NaN, as read back by pandas
from a csv with an empty business_score field. -/
def lotRowNaN : BusinessRow :=
  { id := "lot7", lat := 43.07, lon := -89.4, cells := [("business_score", none)] }

/-- A trends list with one positive-demand and one zero-demand type. -/
def mixedTrends : List (String × ℝ) := [("cafe", 80), ("general business", 0)]

/-- A lot row at the origin with a perfect base business score. -/
def lotRow1 : BusinessRow :=
  { id := "lot1", lat := 0, lon := 0, cells := [("business_score", some 1)] }

/-- A one-record cafe corpus at the origin with fully positive sentiment. -/
def cafeDowntownCorpus : List SentimentRecord :=
  [{ location_tag := "downtown", business_type := "cafe", positive_ratio := 1,
     lat := 0, lon := 0 }]

/-! ## Helper lemmas -/

theorem atan2_zero_one : atan2 0 1 = 0 := by
  simp [atan2, Real.arctan_zero]

theorem haversine_self (lat lon : ℝ) : haversine_distance lat lon lat lon = 0 := by
  simp [haversine_distance, radians, atan2_zero_one]

theorem haversine_comm (lat1 lon1 lat2 lon2 : ℝ) :
    haversine_distance lat1 lon1 lat2 lon2 = haversine_distance lat2 lon2 lat1 lon1 := by
  simp only [haversine_distance, radians]
  have h : ∀ x y : ℝ,
      Real.sin ((x - y) * (Real.pi / 180) / 2) ^ 2
        = Real.sin ((y - x) * (Real.pi / 180) / 2) ^ 2 := by
    intro x y
    have hxy : (x - y) * (Real.pi / 180) / 2 = -((y - x) * (Real.pi / 180) / 2) := by ring
    rw [hxy, Real.sin_neg]
    ring
  rw [h lat2 lat1, h lon2 lon1,
    mul_comm (Real.cos (lat1 * (Real.pi / 180))) (Real.cos (lat2 * (Real.pi / 180)))]

/-- C9: the haversine distance is symmetric in its two coordinate pairs, and
the distance from any coordinate pair to itself is zero. -/
theorem C9_haversine_symm_self :
    (∀ lat1 lon1 lat2 lon2 : ℝ,
      haversine_distance lat1 lon1 lat2 lon2 = haversine_distance lat2 lon2 lat1 lon1) ∧
    (∀ lat lon : ℝ, haversine_distance lat lon lat lon = 0) :=
  ⟨haversine_comm, haversine_self⟩

theorem score_saturation_natCast (k : ℕ) :
    score_saturation k = if k = 0 then 1 else if k = 1 then 0.7 else if k = 2 then 0.3 else 0 := by
  match k with
  | 0 => norm_num [score_saturation]
  | 1 => norm_num [score_saturation]
  | 2 => norm_num [score_saturation]
  | (n + 3) =>
    have h0 : ((n : ℚ) + 3) ≠ 0 := by positivity
    have h1 : ((n : ℚ) + 3) ≠ 1 := by
      intro h
      have : (n : ℚ) = -2 := by linarith
      have hn : (0 : ℚ) ≤ (n : ℚ) := Nat.cast_nonneg n
      linarith
    have h2 : ((n : ℚ) + 3) ≠ 2 := by
      intro h
      have : (n : ℚ) = -1 := by linarith
      have hn : (0 : ℚ) ≤ (n : ℚ) := Nat.cast_nonneg n
      linarith
    have hc : ((n + 3 : ℕ) : ℚ) = (n : ℚ) + 3 := by push_cast; ring
    have hn0 : n + 3 ≠ 0 := by omega
    have hn1 : n + 3 ≠ 1 := by omega
    have hn2 : n + 3 ≠ 2 := by omega
    simp only [score_saturation, hc, h0, h1, h2, hn0, hn1, hn2, if_false]
    norm_num

/-- C6: the saturation score of business_score.py is the exact step table
0 to 1.0, 1 to 0.7, 2 to 0.3, and 0.0 for every count of at least 3, and
it is monotone non-increasing in the competitor count. -/
theorem C6_saturation_step_table :
    score_saturation 0 = 1 ∧ score_saturation 1 = 0.7 ∧ score_saturation 2 = 0.3 ∧
    (∀ n : ℕ, 3 ≤ n → score_saturation n = 0) ∧
    (∀ m n : ℕ, m ≤ n → score_saturation (n : ℚ) ≤ score_saturation (m : ℚ)) := by
  refine ⟨by norm_num [score_saturation], by norm_num [score_saturation],
    by norm_num [score_saturation], ?_, ?_⟩
  · intro n hn
    rw [score_saturation_natCast]
    have h0 : n ≠ 0 := by omega
    have h1 : n ≠ 1 := by omega
    have h2 : n ≠ 2 := by omega
    simp [h0, h1, h2]
  · intro m n hmn
    rw [score_saturation_natCast, score_saturation_natCast]
    split_ifs <;> first | omega | norm_num

/-- Witness for C6 at concrete counts. -/
theorem C6_saturation_step_table_witness :
    (3 ≤ 5 ∧ score_saturation (5 : ℕ) = 0) ∧
    (1 ≤ 2 ∧ score_saturation ((2 : ℕ) : ℚ) ≤ score_saturation ((1 : ℕ) : ℚ)) :=
  ⟨⟨by norm_num, C6_saturation_step_table.2.2.2.1 5 (by norm_num)⟩,
   ⟨by norm_num, C6_saturation_step_table.2.2.2.2 1 2 (by norm_num)⟩⟩

/-- C7: with zero sentiment records for the requested business type, the
matcher returns the no_data tag, the neutral sentiment 0.5 and the sentinel
distance 999.0, for every query point. -/
theorem C7_no_data_neutral (lat lon : ℝ) (business_type : String)
    (sentiment_df : List SentimentRecord) (max_distance_km : ℝ)
    (h : sentiment_df.filter (fun r => r.business_type == business_type) = []) :
    find_closest_sentiment lat lon business_type sentiment_df max_distance_km
      = ("no_data", 0.5, 999.0) := by
  simp [find_closest_sentiment, h]

/-- Witness for C7: a corpus whose only record is for another business type. -/
theorem C7_no_data_neutral_witness :
    ([({ location_tag := "east", business_type := "gym", positive_ratio := 0.8,
         lat := 43, lon := -89 } : SentimentRecord)].filter
        (fun r => r.business_type == "cafe") = []) ∧
    find_closest_sentiment 43.07 (-89.4) "cafe"
        [{ location_tag := "east", business_type := "gym", positive_ratio := 0.8,
           lat := 43, lon := -89 }] 15 = ("no_data", 0.5, 999.0) :=
  ⟨by simp, C7_no_data_neutral 43.07 (-89.4) "cafe" _ 15 (by simp)⟩

theorem roundHalfEven_bounds (x : ℝ) :
    x - 1 / 2 ≤ (roundHalfEven x : ℝ) ∧ (roundHalfEven x : ℝ) ≤ x + 1 / 2 := by
  have hf : Int.fract x = x - ⌊x⌋ := rfl
  have hfl : (⌊x⌋ : ℝ) ≤ x := Int.floor_le x
  have hfl2 : x < ⌊x⌋ + 1 := Int.lt_floor_add_one x
  unfold roundHalfEven
  split_ifs with h1 h2 h3 <;>
    rw [hf] at * <;> constructor <;> push_cast <;> linarith

theorem calibrated_probability_bounds (raw : ℝ) (h0 : 0 ≤ raw) (h1 : raw ≤ 1) :
    25 ≤ calibrated_probability raw ∧ calibrated_probability raw ≤ 90 := by
  unfold calibrated_probability pyRound
  have hx0 : (250 : ℝ) ≤ (25 + raw * 65) * 10 ^ 1 := by norm_num; nlinarith
  have hx1 : (25 + raw * 65) * 10 ^ 1 ≤ 900 := by norm_num; nlinarith
  obtain ⟨hlow, hhigh⟩ := roundHalfEven_bounds ((25 + raw * 65) * 10 ^ 1)
  set r := roundHalfEven ((25 + raw * 65) * 10 ^ 1) with hr
  have h250 : (250 : ℤ) ≤ r := by
    have hgt : (249 : ℝ) < (r : ℝ) := by linarith
    have : (249 : ℤ) < r := by exact_mod_cast hgt
    omega
  have h900 : r ≤ 900 := by
    have hlt : (r : ℝ) < 901 := by linarith
    have : r < (901 : ℤ) := by exact_mod_cast hlt
    omega
  have h250R : (250 : ℝ) ≤ (r : ℝ) := by exact_mod_cast h250
  have h900R : (r : ℝ) ≤ 900 := by exact_mod_cast h900
  constructor <;> norm_num <;> linarith

/-- C2: for all sub-score inputs in the unit interval, the calibrated
final probability of scoring/probability_score.py lies in the documented
interval 25 to 90, rounding included. -/
theorem C2_calibration_bounds (b r t d : ℝ)
    (hb0 : 0 ≤ b) (hb1 : b ≤ 1) (hr0 : 0 ≤ r) (hr1 : r ≤ 1)
    (ht0 : 0 ≤ t) (ht1 : t ≤ 1) (hd0 : 0 ≤ d) (hd1 : d ≤ 1) :
    25 ≤ calibrated_probability (raw_probability b r t d) ∧
    calibrated_probability (raw_probability b r t d) ≤ 90 := by
  apply calibrated_probability_bounds <;> unfold raw_probability <;> nlinarith

/-- Witness for C2 at the all-ones input. -/
theorem C2_calibration_bounds_witness :
    ((0 : ℝ) ≤ 1 ∧ (1 : ℝ) ≤ 1) ∧
    (25 ≤ calibrated_probability (raw_probability 1 1 1 1) ∧
      calibrated_probability (raw_probability 1 1 1 1) ≤ 90) :=
  ⟨⟨by norm_num, le_refl 1⟩,
   C2_calibration_bounds 1 1 1 1 (by norm_num) (by norm_num) (by norm_num) (by norm_num)
     (by norm_num) (by norm_num) (by norm_num) (by norm_num)⟩

theorem decaySentiment_between (s d m : ℝ) :
    min s 0.5 ≤ decaySentiment s d m ∧ decaySentiment s d m ≤ max s 0.5 := by
  unfold decaySentiment
  split_ifs with h
  · set b := min 1.0 ((d - m) / 20.0) with hb
    have hb0 : 0 ≤ b := by
      rw [hb]
      apply le_min
      · norm_num
      · have : m < d := h
        linarith
    have hb1 : b ≤ 1 := by
      rw [hb]
      have := min_le_left (1.0 : ℝ) ((d - m) / 20.0)
      linarith [this]
    constructor
    · have h1 : min s 0.5 ≤ s := min_le_left _ _
      have h2 : min s 0.5 ≤ 0.5 := min_le_right _ _
      nlinarith
    · have h1 : s ≤ max s 0.5 := le_max_left _ _
      have h2 : (0.5 : ℝ) ≤ max s 0.5 := le_max_right _ _
      nlinarith
  · exact ⟨min_le_left _ _, le_max_left _ _⟩

theorem foldl_updateBest_from_some (lat lon : ℝ) (l : List SentimentRecord)
    (bm : String) (bd bs : ℝ) :
    ∃ bm2 bd2 bs2, l.foldl (updateBest lat lon) (some (bm, bd, bs)) = some (bm2, bd2, bs2) ∧
      bd2 ≤ bd ∧ (∀ s ∈ l, bd2 ≤ haversine_distance lat lon s.lat s.lon) ∧
      ((bm2, bd2, bs2) = (bm, bd, bs) ∨
        ∃ rec ∈ l, (bm2, bd2, bs2)
          = (rec.location_tag, haversine_distance lat lon rec.lat rec.lon, rec.positive_ratio)) := by
  induction l generalizing bm bd bs with
  | nil => exact ⟨bm, bd, bs, rfl, le_refl _, by simp, Or.inl rfl⟩
  | cons r rest ih =>
    by_cases hlt : haversine_distance lat lon r.lat r.lon < bd
    · have hstep : updateBest lat lon (some (bm, bd, bs)) r
          = some (r.location_tag, haversine_distance lat lon r.lat r.lon, r.positive_ratio) := by
        simp [updateBest, hlt]
      obtain ⟨bm2, bd2, bs2, hfold, hle, hall, horig⟩ :=
        ih r.location_tag (haversine_distance lat lon r.lat r.lon) r.positive_ratio
      refine ⟨bm2, bd2, bs2, ?_, ?_, ?_, ?_⟩
      · rw [List.foldl_cons, hstep, hfold]
      · linarith
      · intro s hs
        rcases List.mem_cons.mp hs with rfl | hs
        · exact hle
        · exact hall s hs
      · rcases horig with horig | ⟨rec, hrec, heq⟩
        · exact Or.inr ⟨r, List.mem_cons_self r rest, horig⟩
        · exact Or.inr ⟨rec, List.mem_cons_of_mem r hrec, heq⟩
    · have hstep : updateBest lat lon (some (bm, bd, bs)) r = some (bm, bd, bs) := by
        simp [updateBest, hlt]
      obtain ⟨bm2, bd2, bs2, hfold, hle, hall, horig⟩ := ih bm bd bs
      refine ⟨bm2, bd2, bs2, ?_, hle, ?_, ?_⟩
      · rw [List.foldl_cons, hstep, hfold]
      · intro s hs
        rcases List.mem_cons.mp hs with rfl | hs
        · push_neg at hlt
          linarith
        · exact hall s hs
      · rcases horig with horig | ⟨rec, hrec, heq⟩
        · exact Or.inl horig
        · exact Or.inr ⟨rec, List.mem_cons_of_mem r hrec, heq⟩

theorem foldl_updateBest_spec (lat lon : ℝ) (l : List SentimentRecord) (h : l ≠ []) :
    ∃ rec ∈ l, l.foldl (updateBest lat lon) none
        = some (rec.location_tag, haversine_distance lat lon rec.lat rec.lon, rec.positive_ratio) ∧
      ∀ s ∈ l, haversine_distance lat lon rec.lat rec.lon ≤ haversine_distance lat lon s.lat s.lon := by
  match l with
  | [] => exact absurd rfl h
  | r :: rest =>
    have hstep : updateBest lat lon none r
        = some (r.location_tag, haversine_distance lat lon r.lat r.lon, r.positive_ratio) := by
      simp [updateBest]
    obtain ⟨bm2, bd2, bs2, hfold, hle, hall, horig⟩ :=
      foldl_updateBest_from_some lat lon rest r.location_tag
        (haversine_distance lat lon r.lat r.lon) r.positive_ratio
    rcases horig with horig | ⟨rec, hrec, heq⟩
    · refine ⟨r, List.mem_cons_self r rest, ?_, ?_⟩
      · rw [List.foldl_cons, hstep, hfold, horig]
      · intro s hs
        rcases List.mem_cons.mp hs with rfl | hs
        · exact le_refl _
        · have := hall s hs
          have hb : bd2 = haversine_distance lat lon r.lat r.lon := by
            have := congrArg (fun p => p.2.1) horig
            simpa using this
          linarith [hb ▸ this]
    · refine ⟨rec, List.mem_cons_of_mem r hrec, ?_, ?_⟩
      · rw [List.foldl_cons, hstep, hfold, heq]
      · have hb : bd2 = haversine_distance lat lon rec.lat rec.lon := by
          have := congrArg (fun p => p.2.1) heq
          simpa using this
        intro s hs
        rcases List.mem_cons.mp hs with rfl | hs
        · rw [← hb]; exact hle
        · rw [← hb]; exact hall s hs

theorem find_closest_sentiment_eq (lat lon : ℝ) (bt : String) (sdf : List SentimentRecord)
    (mdk : ℝ) (bm : String) (bd bs : ℝ)
    (h : (sdf.filter (fun r => r.business_type == bt)).foldl (updateBest lat lon) none
          = some (bm, bd, bs)) :
    find_closest_sentiment lat lon bt sdf mdk = (bm, decaySentiment bs bd mdk, bd) := by
  simp only [find_closest_sentiment, h]

/-- C10: with at least one matching record, the matcher returns the data of
a nearest matching record with its sentiment decayed, and the returned
sentiment lies in the closed interval between that record's positive_ratio
and the neutral 0.5, however large the distance. -/
theorem C10_sentiment_between (lat lon : ℝ) (business_type : String)
    (sentiment_df : List SentimentRecord) (max_distance_km : ℝ)
    (h : sentiment_df.filter (fun r => r.business_type == business_type) ≠ []) :
    ∃ rec ∈ sentiment_df.filter (fun r => r.business_type == business_type),
      (∀ s ∈ sentiment_df.filter (fun r => r.business_type == business_type),
        haversine_distance lat lon rec.lat rec.lon ≤ haversine_distance lat lon s.lat s.lon) ∧
      find_closest_sentiment lat lon business_type sentiment_df max_distance_km
        = (rec.location_tag,
           decaySentiment rec.positive_ratio
             (haversine_distance lat lon rec.lat rec.lon) max_distance_km,
           haversine_distance lat lon rec.lat rec.lon) ∧
      min rec.positive_ratio 0.5
        ≤ (find_closest_sentiment lat lon business_type sentiment_df max_distance_km).2.1 ∧
      (find_closest_sentiment lat lon business_type sentiment_df max_distance_km).2.1
        ≤ max rec.positive_ratio 0.5 := by
  obtain ⟨rec, hrec, hfold, hmin⟩ := foldl_updateBest_spec lat lon _ h
  have heq := find_closest_sentiment_eq lat lon business_type sentiment_df
    max_distance_km _ _ _ hfold
  refine ⟨rec, hrec, hmin, heq, ?_, ?_⟩
  · rw [heq]
    exact (decaySentiment_between _ _ _).1
  · rw [heq]
    exact (decaySentiment_between _ _ _).2

/-- Witness for C10 with a single-record corpus. -/
theorem C10_sentiment_between_witness :
    (gymCorpus.filter (fun r => r.business_type == "gym") ≠ []) ∧
    (∃ rec ∈ gymCorpus.filter (fun r => r.business_type == "gym"),
      (∀ s ∈ gymCorpus.filter (fun r => r.business_type == "gym"),
        haversine_distance 43 (-89) rec.lat rec.lon ≤ haversine_distance 43 (-89) s.lat s.lon) ∧
      find_closest_sentiment 43 (-89) "gym" gymCorpus 15
        = (rec.location_tag,
           decaySentiment rec.positive_ratio
             (haversine_distance 43 (-89) rec.lat rec.lon) 15,
           haversine_distance 43 (-89) rec.lat rec.lon) ∧
      min rec.positive_ratio 0.5
        ≤ (find_closest_sentiment 43 (-89) "gym" gymCorpus 15).2.1 ∧
      (find_closest_sentiment 43 (-89) "gym" gymCorpus 15).2.1
        ≤ max rec.positive_ratio 0.5) :=
  ⟨by simp [gymCorpus], C10_sentiment_between 43 (-89) "gym" gymCorpus 15 (by simp [gymCorpus])⟩

theorem decay_abs_mono (s d1 d2 : ℝ) (h : d1 ≤ d2) :
    |decaySentiment s d2 15 - 0.5| ≤ |decaySentiment s d1 15 - 0.5| := by
  unfold decaySentiment
  split_ifs with h2 h1
  · set b1 := min 1.0 ((d1 - 15) / 20.0) with hb1
    set b2 := min 1.0 ((d2 - 15) / 20.0) with hb2
    have hb2a : 0 ≤ b2 := le_min (by norm_num) (by linarith)
    have hb2b : b2 ≤ 1 := by
      have := min_le_left (1.0 : ℝ) ((d2 - 15) / 20.0)
      linarith
    have hb1a : 0 ≤ b1 := le_min (by norm_num) (by linarith)
    have hb12 : b1 ≤ b2 := by
      apply min_le_min (le_refl _)
      linarith
    calc |s * (1 - b2) + 0.5 * b2 - 0.5| = |s - 0.5| * (1 - b2) := by
          rw [show s * (1 - b2) + 0.5 * b2 - 0.5 = (s - 0.5) * (1 - b2) by ring, abs_mul,
            abs_of_nonneg (by linarith : (0 : ℝ) ≤ 1 - b2)]
      _ ≤ |s - 0.5| * (1 - b1) :=
          mul_le_mul_of_nonneg_left (by linarith) (abs_nonneg _)
      _ = |s * (1 - b1) + 0.5 * b1 - 0.5| := by
          rw [show s * (1 - b1) + 0.5 * b1 - 0.5 = (s - 0.5) * (1 - b1) by ring, abs_mul,
            abs_of_nonneg (by linarith : (0 : ℝ) ≤ 1 - b1)]
  · set b2 := min 1.0 ((d2 - 15) / 20.0) with hb2
    have hb2a : 0 ≤ b2 := le_min (by norm_num) (by linarith)
    have hb2b : b2 ≤ 1 := by
      have := min_le_left (1.0 : ℝ) ((d2 - 15) / 20.0)
      linarith
    calc |s * (1 - b2) + 0.5 * b2 - 0.5| = |s - 0.5| * (1 - b2) := by
          rw [show s * (1 - b2) + 0.5 * b2 - 0.5 = (s - 0.5) * (1 - b2) by ring, abs_mul,
            abs_of_nonneg (by linarith : (0 : ℝ) ≤ 1 - b2)]
      _ ≤ |s - 0.5| * 1 := mul_le_mul_of_nonneg_left (by linarith) (abs_nonneg _)
      _ = |s - 0.5| := mul_one _
  · exact absurd (by linarith : d2 > 15) h2
  · exact le_refl _

theorem decay_mono_of_half_le (s d1 d2 : ℝ) (hs : 0.5 ≤ s) (h : d1 ≤ d2) :
    decaySentiment s d2 15 ≤ decaySentiment s d1 15 := by
  unfold decaySentiment
  split_ifs with h2 h1
  · set b1 := min 1.0 ((d1 - 15) / 20.0) with hb1
    set b2 := min 1.0 ((d2 - 15) / 20.0) with hb2
    have hb1a : 0 ≤ b1 := le_min (by norm_num) (by linarith)
    have hb12 : b1 ≤ b2 := by
      apply min_le_min (le_refl _)
      linarith
    nlinarith
  · set b2 := min 1.0 ((d2 - 15) / 20.0) with hb2
    have hb2a : 0 ≤ b2 := le_min (by norm_num) (by linarith)
    nlinarith
  · exact absurd (by linarith : d2 > 15) h2
  · exact le_refl _

theorem decay_mono_of_le_half (s d1 d2 : ℝ) (hs : s ≤ 0.5) (h : d1 ≤ d2) :
    decaySentiment s d1 15 ≤ decaySentiment s d2 15 := by
  unfold decaySentiment
  split_ifs with h1 h2
  · set b1 := min 1.0 ((d1 - 15) / 20.0) with hb1
    set b2 := min 1.0 ((d2 - 15) / 20.0) with hb2
    have hb1a : 0 ≤ b1 := le_min (by norm_num) (by linarith)
    have hb12 : b1 ≤ b2 := by
      apply min_le_min (le_refl _)
      linarith
    nlinarith
  · exact absurd (by linarith : d2 > 15) h2
  · set b2 := min 1.0 ((d2 - 15) / 20.0) with hb2
    have hb2a : 0 ≤ b2 := le_min (by norm_num) (by linarith)
    nlinarith
  · exact le_refl _

theorem decay_ceiling (s d : ℝ) (h : 35 ≤ d) : decaySentiment s d 15 = 0.5 := by
  unfold decaySentiment
  rw [if_pos (by linarith : d > (15 : ℝ))]
  have hm : min 1.0 ((d - 15) / 20.0) = 1.0 := min_eq_left (by linarith)
  rw [hm]
  ring

/-- C5 (amended): the matcher returns the nearest-match sentiment passed
through the distance decay, and beyond the 15 km threshold the decay moves
the sentiment monotonically toward the neutral midpoint: the deviation of
the returned value from 0.5 is non-increasing in the nearest-match
distance, the value itself is non-increasing whenever the raw sentiment is
at least 0.5 and non-decreasing whenever the raw sentiment is at most 0.5,
and it equals exactly 0.5 for every distance at or beyond 35 km. -/
theorem C5_decay_amended :
    (∀ (lat lon mdk : ℝ) (bt : String) (sdf : List SentimentRecord)
        (bm : String) (bd bs : ℝ),
      (sdf.filter (fun r => r.business_type == bt)).foldl (updateBest lat lon) none
          = some (bm, bd, bs) →
      find_closest_sentiment lat lon bt sdf mdk = (bm, decaySentiment bs bd mdk, bd)) ∧
    (∀ s d1 d2 : ℝ, d1 ≤ d2 →
      |decaySentiment s d2 15 - 0.5| ≤ |decaySentiment s d1 15 - 0.5|) ∧
    (∀ s d1 d2 : ℝ, 0.5 ≤ s → d1 ≤ d2 →
      decaySentiment s d2 15 ≤ decaySentiment s d1 15) ∧
    (∀ s d1 d2 : ℝ, s ≤ 0.5 → d1 ≤ d2 →
      decaySentiment s d1 15 ≤ decaySentiment s d2 15) ∧
    (∀ s d : ℝ, 35 ≤ d → decaySentiment s d 15 = 0.5) :=
  ⟨fun lat lon mdk bt sdf bm bd bs h => find_closest_sentiment_eq lat lon bt sdf mdk bm bd bs h,
   decay_abs_mono, decay_mono_of_half_le, decay_mono_of_le_half, decay_ceiling⟩

/-- Witness for the amended C5 at concrete sentiments and distances. -/
theorem C5_decay_amended_witness :
    ((gymCorpus.filter (fun r => r.business_type == "gym")).foldl (updateBest 43 (-89)) none
        = some ("east", haversine_distance 43 (-89) 43 (-89), 0.9) ∧
      find_closest_sentiment 43 (-89) "gym" gymCorpus 15
        = ("east", decaySentiment 0.9 (haversine_distance 43 (-89) 43 (-89)) 15,
           haversine_distance 43 (-89) 43 (-89))) ∧
    ((20 : ℝ) ≤ 30 ∧ |decaySentiment 0 30 15 - 0.5| ≤ |decaySentiment 0 20 15 - 0.5|) ∧
    ((0.5 : ℝ) ≤ 1 ∧ (20 : ℝ) ≤ 30 ∧ decaySentiment 1 30 15 ≤ decaySentiment 1 20 15) ∧
    ((0 : ℝ) ≤ 0.5 ∧ (20 : ℝ) ≤ 30 ∧ decaySentiment 0 20 15 ≤ decaySentiment 0 30 15) ∧
    ((35 : ℝ) ≤ 40 ∧ decaySentiment 0.9 40 15 = 0.5) := by
  have hfold : (gymCorpus.filter (fun r => r.business_type == "gym")).foldl
      (updateBest 43 (-89)) none
      = some ("east", haversine_distance 43 (-89) 43 (-89), 0.9) := by
    simp [gymCorpus, updateBest]
  exact ⟨⟨hfold, C5_decay_amended.1 43 (-89) 15 "gym" gymCorpus "east" _ _ hfold⟩,
    ⟨by norm_num, C5_decay_amended.2.1 0 20 30 (by norm_num)⟩,
    ⟨by norm_num, by norm_num, C5_decay_amended.2.2.1 1 20 30 (by norm_num) (by norm_num)⟩,
    ⟨by norm_num, by norm_num, C5_decay_amended.2.2.2.1 0 20 30 (by norm_num) (by norm_num)⟩,
    ⟨by norm_num, C5_decay_amended.2.2.2.2 0.9 40 (by norm_num)⟩⟩

theorem haversine_meridian (t : ℝ) (h0 : 0 ≤ t) (h1 : t < Real.pi / 2) :
    haversine_distance (t * 360 / Real.pi) 0 0 0 = 12742 * t := by
  have hpipos : 0 < Real.pi := Real.pi_pos
  have htpi : t ≤ Real.pi := by linarith
  have hsin : 0 ≤ Real.sin t := Real.sin_nonneg_of_nonneg_of_le_pi h0 htpi
  have hcos : 0 < Real.cos t := Real.cos_pos_of_mem_Ioo ⟨by linarith, h1⟩
  have hpi : Real.pi ≠ 0 := Real.pi_ne_zero
  have e1 : (0 - t * 360 / Real.pi) * (Real.pi / 180) / 2 = -t := by
    field_simp
    ring
  have e2 : t * 360 / Real.pi * (Real.pi / 180) = 2 * t := by
    field_simp
    ring
  simp only [haversine_distance, radians]
  rw [e1, e2]
  simp only [sub_self, zero_mul, zero_div, Real.sin_zero, Real.cos_zero, mul_one,
    Real.sin_neg, neg_sq]
  have hz : Real.sin t ^ 2 + Real.cos (2 * t) * (0 : ℝ) ^ 2 = Real.sin t ^ 2 := by
    ring
  rw [hz]
  have hc2 : 1 - Real.sin t ^ 2 = Real.cos t ^ 2 := by
    have := Real.sin_sq_add_cos_sq t
    linarith
  rw [Real.sqrt_sq hsin, hc2, Real.sqrt_sq hcos.le]
  have hat : atan2 (Real.sin t) (Real.cos t) = t := by
    unfold atan2
    rw [if_pos hcos, ← Real.tan_eq_sin_div_cos, Real.arctan_tan (by linarith) h1]
  rw [hat]
  ring

/-- C5 counterexample: a single cafe record with positive_ratio 0 sits at
the origin; queried from 20 km away the matcher returns sentiment 1/8,
queried from 30 km away it returns 3/8. The returned sentiment strictly
increased as the nearest-match distance grew beyond the threshold, so it is
not a monotone non-increasing function of that distance. -/
theorem C5_counterexample :
    find_closest_sentiment (20 / 12742 * 360 / Real.pi) 0 "cafe"
        cafeOriginCorpus 15 = ("isthmus", 1 / 8, 20) ∧
    find_closest_sentiment (30 / 12742 * 360 / Real.pi) 0 "cafe"
        cafeOriginCorpus 15 = ("isthmus", 3 / 8, 30) ∧
    (20 : ℝ) < 30 ∧ ¬ ((3 : ℝ) / 8 ≤ 1 / 8) := by
  have hpi3 : (3 : ℝ) < Real.pi := Real.pi_gt_three
  have hd20 : haversine_distance (20 / 12742 * 360 / Real.pi) 0 0 0 = 20 := by
    have := haversine_meridian (20 / 12742) (by norm_num) (by
      have : (20 : ℝ) / 12742 < 3 / 2 := by norm_num
      linarith)
    rw [show (20 : ℝ) / 12742 * 360 / Real.pi = 20 / 12742 * 360 / Real.pi from rfl] at this
    rw [this]
    norm_num
  have hd30 : haversine_distance (30 / 12742 * 360 / Real.pi) 0 0 0 = 30 := by
    have := haversine_meridian (30 / 12742) (by norm_num) (by
      have : (30 : ℝ) / 12742 < 3 / 2 := by norm_num
      linarith)
    rw [this]
    norm_num
  have hdec20 : decaySentiment 0 20 15 = 1 / 8 := by
    unfold decaySentiment
    rw [if_pos (by norm_num : (20 : ℝ) > 15)]
    norm_num [min_def]
  have hdec30 : decaySentiment 0 30 15 = 3 / 8 := by
    unfold decaySentiment
    rw [if_pos (by norm_num : (30 : ℝ) > 15)]
    norm_num [min_def]
  refine ⟨?_, ?_, by norm_num, by norm_num⟩
  · have hfold : (cafeOriginCorpus.filter
          (fun r => r.business_type == "cafe")).foldl
          (updateBest (20 / 12742 * 360 / Real.pi) 0) none
        = some ("isthmus",
            haversine_distance (20 / 12742 * 360 / Real.pi) 0 0 0, 0) := by
      simp [cafeOriginCorpus, updateBest]
    rw [find_closest_sentiment_eq _ _ _ _ _ _ _ _ hfold, hd20, hdec20]
  · have hfold : (cafeOriginCorpus.filter
          (fun r => r.business_type == "cafe")).foldl
          (updateBest (30 / 12742 * 360 / Real.pi) 0) none
        = some ("isthmus",
            haversine_distance (30 / 12742 * 360 / Real.pi) 0 0 0, 0) := by
      simp [cafeOriginCorpus, updateBest]
    rw [find_closest_sentiment_eq _ _ _ _ _ _ _ _ hfold, hd30, hdec30]

theorem pyRound1_half_times_100 : pyRound 1 ((0.5 : ℝ) * 100) = 50 := by
  unfold pyRound roundHalfEven
  have e : ((0.5 : ℝ) * 100) * 10 ^ 1 = 500 := by norm_num
  rw [e]
  have hf : (⌊(500 : ℝ)⌋ : ℤ) = 500 := by norm_num [Int.floor_eq_iff]
  have hfr : Int.fract (500 : ℝ) = 0 := by rw [Int.fract, hf]; norm_num
  rw [hfr, hf]
  norm_num

/-- C3 counterexample: with the transcript corpus absent, a lot with base
score 1, nearest text sentiment 1 at distance 0 and demand 100, the code
produces 81.9 percent: the four fixed weights with the transcript slot
filled by the neutral 0.5. The claimed 0.40/0.40/0.20 reweighting would
give 90 percent instead, so the scheme does not adapt to a three-weight
form. -/
theorem C3_counterexample :
    (scoreOne lotRow1 "cafe" cafeDowntownCorpus none cafeTrends).final_probability
      = some 81.9 ∧
    calibrated_probability (0.40 * 1 + 0.40 * 1 + 0.20 * 1) = 90 ∧
    (81.9 : ℝ) ≠ 90 := by
  refine ⟨?_, ?_, by norm_num⟩
  · have hfold : (cafeDowntownCorpus.filter (fun r => r.business_type == "cafe")).foldl
        (updateBest 0 0) none = some ("downtown", haversine_distance 0 0 0 0, 1) := by
      simp [cafeDowntownCorpus, updateBest]
    have hdec : decaySentiment 1 0 15.0 = 1 := by
      unfold decaySentiment
      rw [if_neg (by norm_num : ¬ ((0 : ℝ) > 15.0))]
    have hfcs : find_closest_sentiment 0 0 "cafe" cafeDowntownCorpus 15.0
        = ("downtown", 1, 0) := by
      rw [find_closest_sentiment_eq 0 0 "cafe" cafeDowntownCorpus 15.0 _ _ _ hfold,
        haversine_self, hdec]
    have hcal : calibrated_probability (raw_probability 1 1 (1 / 2) 1) = 819 / 10 := by
      have hraw : raw_probability 1 1 (1 / 2) 1 = 0.875 := by norm_num [raw_probability]
      rw [hraw]
      unfold calibrated_probability pyRound
      have e : (25 + (0.875 : ℝ) * 65) * 10 ^ 1 = 818.75 := by norm_num
      rw [e]
      have hf : (⌊(818.75 : ℝ)⌋ : ℤ) = 818 := by norm_num [Int.floor_eq_iff]
      have hfr : Int.fract (818.75 : ℝ) = 0.75 := by rw [Int.fract, hf]; norm_num
      rw [show roundHalfEven (818.75 : ℝ) = 819 from by
        unfold roundHalfEven
        rw [hfr, hf]
        norm_num]
      norm_num
    simp [scoreOne, lotRow1, hfcs, cafeTrends, dictGet, BusinessRow.get, List.find?]
    norm_num
    exact hcal
  · have h1 : (0.40 * 1 + 0.40 * 1 + 0.20 * 1 : ℝ) = 1 := by norm_num
    rw [h1]
    unfold calibrated_probability pyRound
    have e : (25 + (1 : ℝ) * 65) * 10 ^ 1 = 900 := by norm_num
    rw [e]
    have hf : (⌊(900 : ℝ)⌋ : ℤ) = 900 := by norm_num [Int.floor_eq_iff]
    have hfr : Int.fract (900 : ℝ) = 0 := by rw [Int.fract, hf]; norm_num
    rw [show roundHalfEven (900 : ℝ) = 900 from by
      unfold roundHalfEven
      rw [hfr, hf]
      norm_num]
    norm_num

/-- C3 (amended): the fusion stage always combines with the fixed weights
0.30 competitive, 0.25 text sentiment, 0.25 transcript sentiment and 0.20
trend, which sum to 1.0 (weighting the all-equal input x yields x); when
the transcript corpus is absent it does not hard-fail and does not
reweight: it substitutes the neutral transcript sentiment 0.5 under the
same four weights. The 0.40/0.40/0.20 scheme, also summing to 1.0, belongs
to the separate null-repair script scoring/fix_nulls.py. -/
theorem C3_weights_amended :
    (∀ x : ℝ, raw_probability x x x x = x) ∧
    (∀ x : ℝ, fixNullsRaw x x x = x / 100) ∧
    (∀ (row : BusinessRow) (bt : String) (sdf : List SentimentRecord)
        (td : List (String × ℝ)),
      (scoreOne row bt sdf none td).transcript_sentiment_score = 50 ∧
      (scoreOne row bt sdf none td).final_probability
        = Option.map (fun b => calibrated_probability (raw_probability b
            (find_closest_sentiment row.lat row.lon bt sdf).2.1 0.5
            (dictGet td bt 25 / 100))) (row.get "business_score" 0.5)) := by
  refine ⟨?_, ?_, ?_⟩
  · intro x
    unfold raw_probability
    ring
  · intro x
    unfold fixNullsRaw
    ring
  · intro row bt sdf td
    constructor
    · simp [scoreOne, pyRound1_half_times_100]
    · cases hrow : row.get "business_score" 0.5 with
      | none => simp [scoreOne, hrow]
      | some b =>
          simp [scoreOne, hrow]
          norm_num

/-- C4: a lot row whose business_score cell is NaN is not repaired by the
Series.get default of the fusion stage (the default applies only to an
absent key); the NaN propagates through the weighted sum, the calibration
and the rounding, and the emitted row carries a null final_probability and
a null base_business_score. This is the code defect that the repair script
scoring/fix_nulls.py exists to clean up after. -/
theorem C4_nan_propagates_null :
    (scoreOne lotRowNaN "cafe" [] none cafeTrends).final_probability = none ∧
    (scoreOne lotRowNaN "cafe" [] none cafeTrends).base_business_score = none := by
  constructor <;> simp [scoreOne, lotRowNaN, BusinessRow.get, List.find?]

theorem insertDescByTaxes_perm (r : TaxJoinRow) (l : List TaxJoinRow) :
    List.Perm (insertDescByTaxes r l) (r :: l) := by
  induction l with
  | nil => simp [insertDescByTaxes]
  | cons s rest ih =>
      unfold insertDescByTaxes
      split_ifs with h
      · exact List.Perm.refl _
      · exact (ih.cons s).trans (List.Perm.swap r s rest)

theorem sortByTaxesDesc_perm (l : List TaxJoinRow) : List.Perm (sortByTaxesDesc l) l := by
  induction l with
  | nil => exact List.Perm.refl _
  | cons r rest ih =>
      unfold sortByTaxesDesc
      exact (insertDescByTaxes_perm r _).trans (ih.cons r)

theorem insertDescByTaxes_pairwise (r : TaxJoinRow) (l : List TaxJoinRow)
    (h : l.Pairwise (fun a b => b.TotalTaxes ≤ a.TotalTaxes)) :
    (insertDescByTaxes r l).Pairwise (fun a b => b.TotalTaxes ≤ a.TotalTaxes) := by
  induction l with
  | nil => simp [insertDescByTaxes]
  | cons s rest ih =>
      rw [List.pairwise_cons] at h
      obtain ⟨hs, hrest⟩ := h
      unfold insertDescByTaxes
      split_ifs with hle
      · rw [List.pairwise_cons]
        constructor
        · intro a ha
          rcases List.mem_cons.mp ha with rfl | ha
          · exact hle
          · exact le_trans (hs a ha) hle
        · exact List.pairwise_cons.mpr ⟨hs, hrest⟩
      · rw [List.pairwise_cons]
        constructor
        · intro a ha
          have hmem := (insertDescByTaxes_perm r rest).mem_iff.mp ha
          rcases List.mem_cons.mp hmem with rfl | ha2
          · exact le_of_lt (lt_of_not_le hle)
          · exact hs a ha2
        · exact ih hrest

theorem sortByTaxesDesc_pairwise (l : List TaxJoinRow) :
    (sortByTaxesDesc l).Pairwise (fun a b => b.TotalTaxes ≤ a.TotalTaxes) := by
  induction l with
  | nil => simp [sortByTaxesDesc]
  | cons r rest ih => exact insertDescByTaxes_pairwise r _ ih

theorem dropDupGo_mem (seen : List String) (l : List TaxJoinRow) (r : TaxJoinRow)
    (h : r ∈ dropDupGo seen l) : r ∈ l ∧ r.id ∉ seen := by
  induction l generalizing seen with
  | nil => simp [dropDupGo] at h
  | cons x rest ih =>
      unfold dropDupGo at h
      split_ifs at h with hx
      · obtain ⟨hmem, hns⟩ := ih seen h
        exact ⟨List.mem_cons_of_mem x hmem, hns⟩
      · rcases List.mem_cons.mp h with rfl | h2
        · exact ⟨List.mem_cons_self _ _, hx⟩
        · obtain ⟨hmem, hns⟩ := ih _ h2
          refine ⟨List.mem_cons_of_mem x hmem, ?_⟩
          intro hcon
          exact hns (List.mem_cons_of_mem _ hcon)

theorem dropDupGo_filter_nil (l : List TaxJoinRow) (seen : List String) (i : String)
    (hi : i ∈ seen) :
    (dropDupGo seen l).filter (fun r => r.id == i) = [] := by
  rw [List.filter_eq_nil_iff]
  intro a ha
  simp only [beq_iff_eq]
  intro heq
  exact (dropDupGo_mem seen l a ha).2 (heq ▸ hi)

theorem dropDupGo_filter_length (l : List TaxJoinRow) :
    ∀ (seen : List String) (i : String), i ∉ seen →
    ((dropDupGo seen l).filter (fun r => r.id == i)).length
      = if i ∈ l.map (fun r => r.id) then 1 else 0 := by
  induction l with
  | nil =>
      intro seen i hi
      simp [dropDupGo]
  | cons x rest ih =>
      intro seen i hi
      have hcons : dropDupGo seen (x :: rest)
          = if x.id ∈ seen then dropDupGo seen rest
            else x :: dropDupGo (x.id :: seen) rest := rfl
      by_cases hx : x.id ∈ seen
      · rw [hcons, if_pos hx]
        rw [ih seen i hi]
        have hne : ¬ (i = x.id) := fun h => hi (h ▸ hx)
        simp [List.map_cons, List.mem_cons, hne]
      · rw [hcons, if_neg hx]
        by_cases hxi : x.id = i
        · rw [List.filter_cons_of_pos (by simp [hxi]),
            dropDupGo_filter_nil rest (x.id :: seen) i (by simp [hxi])]
          simp [List.map_cons, List.mem_cons, hxi]
        · rw [List.filter_cons_of_neg (by simp [hxi])]
          have hi2 : i ∉ x.id :: seen := by
            intro hc
            rcases List.mem_cons.mp hc with rfl | hc2
            · exact hxi rfl
            · exact hi hc2
          rw [ih (x.id :: seen) i hi2]
          have hne : ¬ (i = x.id) := fun h => hxi h.symm
          simp [List.map_cons, List.mem_cons, hne]

theorem dropDupGo_max (l : List TaxJoinRow)
    (hsorted : l.Pairwise (fun a b => b.TotalTaxes ≤ a.TotalTaxes)) :
    ∀ (seen : List String) (r : TaxJoinRow), r ∈ dropDupGo seen l →
      ∀ s ∈ l, s.id = r.id → s.TotalTaxes ≤ r.TotalTaxes := by
  induction l with
  | nil =>
      intro seen r hr
      simp [dropDupGo] at hr
  | cons x rest ih =>
      rw [List.pairwise_cons] at hsorted
      obtain ⟨hx, hrest⟩ := hsorted
      intro seen r hr s hs hid
      unfold dropDupGo at hr
      split_ifs at hr with hseen
      · rcases List.mem_cons.mp hs with rfl | hs2
        · exact absurd (hid ▸ hseen) ((dropDupGo_mem seen rest r hr).2)
        · exact ih hrest seen r hr s hs2 hid
      · rcases List.mem_cons.mp hr with rfl | hr2
        · rcases List.mem_cons.mp hs with rfl | hs2
          · exact le_refl _
          · exact hx s hs2
        · rcases List.mem_cons.mp hs with rfl | hs2
          · have hnotin := (dropDupGo_mem _ rest r hr2).2
            exact absurd (hid ▸ List.mem_cons_self s.id seen) hnotin
          · exact ih hrest _ r hr2 s hs2 hid

/-- C8: after sorting the tax spatial join by TotalTaxes descending and
deduplicating by lot id, every id present in the input is retained exactly
once, and the retained row is an input row whose TotalTaxes is maximal
among all candidate rows with that id. -/
theorem C8_dedupe_tax_join (rows : List TaxJoinRow) (i : String)
    (h : i ∈ rows.map (fun r => r.id)) :
    ((dedupeTaxJoin rows).filter (fun r => r.id == i)).length = 1 ∧
    ∀ r ∈ dedupeTaxJoin rows, r.id = i →
      r ∈ rows ∧ ∀ s ∈ rows, s.id = i → s.TotalTaxes ≤ r.TotalTaxes := by
  have hperm := sortByTaxesDesc_perm rows
  have hmapped : i ∈ (sortByTaxesDesc rows).map (fun r => r.id) :=
    (List.Perm.mem_iff (hperm.map (fun r => r.id))).mpr h
  constructor
  · unfold dedupeTaxJoin drop_duplicates_by_id
    rw [dropDupGo_filter_length (sortByTaxesDesc rows) [] i (by simp)]
    simp [hmapped]
  · intro r hr hid
    unfold dedupeTaxJoin drop_duplicates_by_id at hr
    have hmem := dropDupGo_mem [] _ r hr
    constructor
    · exact hperm.mem_iff.mp hmem.1
    · intro s hs hsid
      have hs2 : s ∈ sortByTaxesDesc rows := hperm.mem_iff.mpr hs
      exact dropDupGo_max _ (sortByTaxesDesc_pairwise rows) [] r hr s hs2
        (by rw [hsid, hid])

/-- Witness for C8: two candidates for lot a resolve to the one taxed 7. -/
theorem C8_dedupe_tax_join_witness :
    ("a" ∈ ([⟨"a", 5⟩, ⟨"b", 3⟩, ⟨"a", 7⟩] : List TaxJoinRow).map (fun r => r.id)) ∧
    ((dedupeTaxJoin [⟨"a", 5⟩, ⟨"b", 3⟩, ⟨"a", 7⟩]).filter (fun r => r.id == "a")).length = 1 ∧
    (∀ r ∈ dedupeTaxJoin [⟨"a", 5⟩, ⟨"b", 3⟩, ⟨"a", 7⟩], r.id = "a" →
      r ∈ ([⟨"a", 5⟩, ⟨"b", 3⟩, ⟨"a", 7⟩] : List TaxJoinRow) ∧
      ∀ s ∈ ([⟨"a", 5⟩, ⟨"b", 3⟩, ⟨"a", 7⟩] : List TaxJoinRow), s.id = "a" →
        s.TotalTaxes ≤ r.TotalTaxes) :=
  ⟨by simp, (C8_dedupe_tax_join [⟨"a", 5⟩, ⟨"b", 3⟩, ⟨"a", 7⟩] "a" (by simp)).1,
    (C8_dedupe_tax_join [⟨"a", 5⟩, ⟨"b", 3⟩, ⟨"a", 7⟩] "a" (by simp)).2⟩

theorem dictInsert_keys_nodup (d : List (String × ℝ)) (k : String) (v : ℝ)
    (h : (d.map Prod.fst).Nodup) : ((dictInsert d k v).map Prod.fst).Nodup := by
  unfold dictInsert
  split_ifs with hany
  · have hsame : (d.map (fun p => if p.1 == k then (k, v) else p)).map Prod.fst
        = d.map Prod.fst := by
      rw [List.map_map]
      apply List.map_congr_left
      intro p hp
      by_cases hpk : p.1 == k
      · have hpe : p.1 = k := eq_of_beq hpk
        simp [hpk, hpe]
      · have hne : p.1 ≠ k := fun hh => hpk (by simp [hh])
        simp [hne]
    rw [hsame]
    exact h
  · rw [List.map_append]
    have hknotin : k ∉ d.map Prod.fst := by
      intro hk
      obtain ⟨p, hp, hpk⟩ := List.mem_map.mp hk
      exact hany (List.any_eq_true.mpr ⟨p, hp, by simp [hpk]⟩)
    simp only [List.map_cons, List.map_nil]
    exact List.Nodup.append h (List.nodup_singleton k)
      (by simpa [List.disjoint_singleton] using hknotin)

theorem dictOfList_keys_nodup (l : List (String × ℝ)) :
    ((dictOfList l).map Prod.fst).Nodup := by
  unfold dictOfList
  suffices h : ∀ d : List (String × ℝ), (d.map Prod.fst).Nodup →
      ((l.foldl (fun d p => dictInsert d p.1 p.2) d).map Prod.fst).Nodup by
    exact h [] (by simp)
  induction l with
  | nil => intro d hd; exact hd
  | cons p rest ih =>
      intro d hd
      exact ih _ (dictInsert_keys_nodup d p.1 p.2 hd)

theorem keys_nodup_inj {l : List (String × ℝ)} (h : (l.map Prod.fst).Nodup)
    {p q : String × ℝ} (hp : p ∈ l) (hq : q ∈ l) (heq : p.1 = q.1) : p = q := by
  induction l with
  | nil => cases hp
  | cons x rest ih =>
      rw [List.map_cons, List.nodup_cons] at h
      obtain ⟨hx, hrest⟩ := h
      rcases List.mem_cons.mp hp with rfl | hp2
      · rcases List.mem_cons.mp hq with rfl | hq2
        · rfl
        · exact absurd (heq ▸ List.mem_map_of_mem Prod.fst hq2) hx
      · rcases List.mem_cons.mp hq with rfl | hq2
        · exact absurd (heq ▸ List.mem_map_of_mem Prod.fst hp2) hx
        · exact ih hrest hp2 hq2

theorem length_filter_flatMap {α β : Type} (l : List α) (f : α → List β) (P : β → Bool) :
    ((l.flatMap f).filter P).length = (l.map (fun a => ((f a).filter P).length)).sum := by
  induction l with
  | nil => simp
  | cons a rest ih => simp [List.flatMap_cons, List.filter_append, ih]

theorem sum_map_ite_count {α : Type} [DecidableEq α] (l : List α) (a : α) :
    (l.map (fun x => if x = a then 1 else 0)).sum = l.count a := by
  induction l with
  | nil => simp
  | cons x rest ih =>
      simp only [List.map_cons, List.sum_cons, List.count_cons, ih]
      by_cases h : x = a <;> simp [h, Nat.add_comm]

theorem sum_map_const_nat {α : Type} (l : List α) (c : ℕ) :
    (l.map (fun _ => c)).sum = l.length * c := by
  induction l with
  | nil => simp
  | cons a rest ih => simp [ih, Nat.succ_mul, Nat.add_comm]

theorem scoreOne_id (row : BusinessRow) (bt : String) (sdf : List SentimentRecord)
    (tdf : Option (List SentimentRecord)) (td : List (String × ℝ)) :
    (scoreOne row bt sdf tdf td).id = row.id := rfl

theorem scoreOne_business_type (row : BusinessRow) (bt : String)
    (sdf : List SentimentRecord) (tdf : Option (List SentimentRecord))
    (td : List (String × ℝ)) :
    (scoreOne row bt sdf tdf td).business_type = bt := rfl

theorem businessTypes_nodup (td : List (String × ℝ)) (h : (td.map Prod.fst).Nodup) :
    (businessTypes td).Nodup := by
  unfold businessTypes
  exact h.sublist (List.Sublist.map Prod.fst (List.filter_sublist td))

/-- C1: the fusion stage produces exactly one FinalScore record per
(input lot row, positive-demand business type) pair and none for
zero-demand types: the result length is the full cross product size, each
(lot id, positive type) pair is matched by exactly one row, and no row
carries a zero-demand type. -/
theorem C1_cross_product (business_df : List BusinessRow)
    (sentiment_df : List SentimentRecord) (transcript_df : Option (List SentimentRecord))
    (trends_list : List (String × ℝ))
    (hids : (business_df.map (fun r => r.id)).Nodup) :
    (mainResults business_df sentiment_df transcript_df trends_list).length
      = business_df.length * (businessTypes (dictOfList trends_list)).length ∧
    (∀ row ∈ business_df, ∀ p ∈ dictOfList trends_list, 0 < p.2 →
      ((mainResults business_df sentiment_df transcript_df trends_list).filter
        (fun fs => fs.id == row.id && fs.business_type == p.1)).length = 1) ∧
    (∀ p ∈ dictOfList trends_list, p.2 = 0 →
      (mainResults business_df sentiment_df transcript_df trends_list).filter
        (fun fs => fs.business_type == p.1) = []) := by
  refine ⟨?_, ?_, ?_⟩
  · simp only [mainResults]
    rw [List.length_flatMap]
    have hmap : business_df.map (List.length ∘ fun row =>
        ((businessTypes (dictOfList trends_list)).map
          (fun bt => scoreOne row bt sentiment_df transcript_df (dictOfList trends_list))))
        = business_df.map (fun _ => (businessTypes (dictOfList trends_list)).length) := by
      apply List.map_congr_left
      intro r _
      simp [Function.comp]
    rw [hmap, sum_map_const_nat]
  · intro row hrow p hp hpos
    simp only [mainResults]
    rw [length_filter_flatMap]
    have hinner : ∀ r' ∈ business_df,
        (((businessTypes (dictOfList trends_list)).map
          (fun bt => scoreOne r' bt sentiment_df transcript_df (dictOfList trends_list))).filter
          (fun fs => fs.id == row.id && fs.business_type == p.1)).length
        = if r'.id = row.id then 1 else 0 := by
      intro r' _
      rw [List.filter_map, List.length_map]
      by_cases hid : r'.id = row.id
      · rw [if_pos hid]
        have hpred : ((businessTypes (dictOfList trends_list)).filter
            ((fun fs => fs.id == row.id && fs.business_type == p.1) ∘
              (fun bt => scoreOne r' bt sentiment_df transcript_df (dictOfList trends_list))))
            = (businessTypes (dictOfList trends_list)).filter (fun bt => bt == p.1) := by
          apply List.filter_congr
          intro bt _
          simp [Function.comp, scoreOne_id, scoreOne_business_type, hid]
        rw [hpred, ← List.countP_eq_length_filter]
        have hmem : p.1 ∈ businessTypes (dictOfList trends_list) := by
          unfold businessTypes
          exact List.mem_map_of_mem Prod.fst
            (List.mem_filter.mpr ⟨hp, by simp [hpos]⟩)
        have hnd : (businessTypes (dictOfList trends_list)).Nodup :=
          businessTypes_nodup _ (dictOfList_keys_nodup trends_list)
        rw [show (fun bt => bt == p.1) = (fun bt => bt == p.1) from rfl]
        exact List.count_eq_one_of_mem hnd hmem
      · rw [if_neg hid]
        have hpred : ((businessTypes (dictOfList trends_list)).filter
            ((fun fs => fs.id == row.id && fs.business_type == p.1) ∘
              (fun bt => scoreOne r' bt sentiment_df transcript_df (dictOfList trends_list))))
            = [] := by
          rw [List.filter_eq_nil_iff]
          intro bt _
          simp [Function.comp, scoreOne_id, scoreOne_business_type, hid]
        rw [hpred]
        rfl
    rw [List.map_congr_left hinner]
    have hmm : business_df.map (fun r' => if r'.id = row.id then 1 else 0)
        = (business_df.map (fun r => r.id)).map (fun i => if i = row.id then 1 else 0) := by
      rw [List.map_map]
      rfl
    rw [hmm, sum_map_ite_count]
    exact List.count_eq_one_of_mem hids (List.mem_map_of_mem (fun r => r.id) hrow)
  · intro p hp hzero
    simp only [mainResults]
    rw [List.filter_eq_nil_iff]
    intro fs hfs
    simp only [List.mem_flatMap, List.mem_map] at hfs
    obtain ⟨row, hrow, bt, hbt, rfl⟩ := hfs
    rw [scoreOne_business_type]
    simp only [beq_iff_eq]
    intro hcon
    unfold businessTypes at hbt
    obtain ⟨q, hq, hq1⟩ := List.mem_map.mp hbt
    have hqmem := (List.mem_filter.mp hq).1
    have hqpos : (0 : ℝ) < q.2 := by
      have := (List.mem_filter.mp hq).2
      simpa using this
    have hqp : q = p :=
      keys_nodup_inj (dictOfList_keys_nodup trends_list) hqmem hp (by rw [hq1, hcon])
    rw [hqp, hzero] at hqpos
    exact lt_irrefl 0 hqpos


/-- Witness for C1 on a one-lot frame with one positive-demand and one
zero-demand business type. -/
theorem C1_cross_product_witness :
    (([lotRow1].map (fun r => r.id)).Nodup) ∧
    ((mainResults [lotRow1] [] none mixedTrends).length
        = [lotRow1].length * (businessTypes (dictOfList mixedTrends)).length ∧
      (∀ row ∈ [lotRow1], ∀ p ∈ dictOfList mixedTrends, 0 < p.2 →
        ((mainResults [lotRow1] [] none mixedTrends).filter
          (fun fs => fs.id == row.id && fs.business_type == p.1)).length = 1) ∧
      (∀ p ∈ dictOfList mixedTrends, p.2 = 0 →
        (mainResults [lotRow1] [] none mixedTrends).filter
          (fun fs => fs.business_type == p.1) = [])) :=
  ⟨by simp [lotRow1], C1_cross_product [lotRow1] [] none mixedTrends (by simp [lotRow1])⟩
